import Mathlib

/-!
Shallow embedding of the CulturaLog personal-media logging application
(`services.ts`, the `App` controller component, `constants.ts`/`components.tsx`,
and `types.ts`).

Modelling conventions:
* JavaScript values parsed from / serialized to JSON are modelled by the
  inductive `JsonValue`.  `localStorage` stores strings; a stored string is
  modelled by its parse outcome (`Stored`): either the `JsonValue` it parses
  to, or `malformed` when `JSON.parse` would throw.  `JSON.stringify` of an
  array always produces a parseable string, hence always a `Stored.json`.
* A `localStorage.getItem` call can itself throw (storage disabled); a lookup
  therefore yields a `ReadResult`: the key is absent, the read throws, or a
  stored string is returned.
* `crypto.randomUUID()` and `new Date(...).getTime()` are platform services;
  they enter the model as explicit parameters (`freshId`, `getTime`).
* `fetch` is modelled by the `FetchOutcome` the environment supplies for the
  single request the client makes: a network error, or a response carrying an
  `ok` flag and a body (again as a parse outcome, since `response.json()`
  throws on a non-JSON body).
* The TypeScript code casts parsed JSON to typed arrays without validation;
  the cast is a runtime no-op, so functions that "return `T[]`" are modelled
  as returning the raw `JsonValue` (or `Option JsonValue`, `none` standing
  for JavaScript `undefined`).
-/

/-- JSON values, the results of a successful `JSON.parse`. -/
inductive JsonValue where
  | null
  | bool (b : Bool)
  | num (n : Int)
  | str (s : String)
  | arr (elems : List JsonValue)
  | obj (fields : List (String × JsonValue))

/-- A string held in `localStorage`, identified with its `JSON.parse` outcome:
either the value it parses to, or a parse failure. -/
inductive Stored where
  | json (v : JsonValue)
  | malformed

/-- Outcome of `localStorage.getItem(key)`: key absent (`null`), the call
throws, or a stored string is returned. -/
inductive ReadResult where
  | absent
  | readError
  | value (s : Stored)

/-- The browser's key-value store, keyed by string. -/
def Store : Type := String → ReadResult

/-- A store in which every key is absent. -/
def emptyStore : Store := fun _ => ReadResult.absent

-- constants.ts

/-- From `constants.ts`: the metadata-provider access credential, shipped as the
unreplaced placeholder. -/
def TMDB_API_KEY : String := "YOUR_TMDB_API_KEY_HERE"

/-- From `constants.ts`: storage key for the movie collection. -/
def STORAGE_KEY_MOVIES : String := "culturaLog_movies"

/-- From `constants.ts`: storage key for the book collection. -/
def STORAGE_KEY_BOOKS : String := "culturaLog_books"

/-- From `constants.ts`: storage key for the event collection. -/
def STORAGE_KEY_EVENTS : String := "culturaLog_events"

-- types.ts

/-- From `types.ts`, `ActivityType`: the three item categories. -/
inductive ActivityType where
  | movie
  | book
  | event
deriving DecidableEq, Repr

/-- From `types.ts`, `Movie` (base fields inlined; the constant literal tag
`type: 'movie'` is carried by the `Activity` wrapper below). -/
structure Movie where
  id : String
  title : String
  review : String
  rating : Int
  date : String
  releaseYear : String
  posterPath : Option String
  tmdbId : Int
deriving DecidableEq, Repr

/-- From `types.ts`, `Book`. -/
structure Book where
  id : String
  title : String
  review : String
  rating : Int
  date : String
  author : String
  isbn : String
deriving DecidableEq, Repr

/-- From `types.ts`, `Event`. -/
structure Event where
  id : String
  title : String
  review : String
  rating : Int
  date : String
  venue : String
deriving DecidableEq, Repr

/-- From `types.ts`, `Activity`: the tagged union of the three item shapes; the
constructor plays the role of the `type` discriminant field. -/
inductive Activity where
  | movie (m : Movie)
  | book (b : Book)
  | event (e : Event)
deriving DecidableEq, Repr

/-- The `type` discriminant field of an `Activity`. -/
def Activity.activityType : Activity → ActivityType
  | .movie _ => .movie
  | .book _ => .book
  | .event _ => .event

/-- The `id` field of an `Activity`. -/
def Activity.id : Activity → String
  | .movie m => m.id
  | .book b => b.id
  | .event e => e.id

/-- The `date` field of an `Activity`. -/
def Activity.date : Activity → String
  | .movie m => m.date
  | .book b => b.date
  | .event e => e.date

/-- JSON encoding of a `Movie` record (what `JSON.stringify` produces for one
array element, including the discriminant field). -/
def encodeMovie (m : Movie) : JsonValue :=
  .obj [("id", .str m.id), ("title", .str m.title), ("review", .str m.review),
        ("rating", .num m.rating), ("date", .str m.date), ("type", .str "movie"),
        ("releaseYear", .str m.releaseYear),
        ("posterPath", match m.posterPath with | some p => .str p | none => .null),
        ("tmdbId", .num m.tmdbId)]

/-- JSON encoding of a `Book` record. -/
def encodeBook (b : Book) : JsonValue :=
  .obj [("id", .str b.id), ("title", .str b.title), ("review", .str b.review),
        ("rating", .num b.rating), ("date", .str b.date), ("type", .str "book"),
        ("author", .str b.author), ("isbn", .str b.isbn)]

/-- JSON encoding of an `Event` record. -/
def encodeEvent (e : Event) : JsonValue :=
  .obj [("id", .str e.id), ("title", .str e.title), ("review", .str e.review),
        ("rating", .num e.rating), ("date", .str e.date), ("type", .str "event"),
        ("venue", .str e.venue)]

-- services.ts : storage service

/-- From `services.ts`, `getItemsFromStorage`: read the blob under `key`; a `null`
result, a read error, or a parse failure all yield the empty array; a string
that parses is returned as-is (the cast to `T[]` is a runtime no-op, so the
raw parsed value is what the caller receives). -/
def getItemsFromStorage (store : Store) (key : String) : JsonValue :=
  match store key with
  | .absent => .arr []
  | .readError => .arr []
  | .value .malformed => .arr []
  | .value (.json v) => v

/-- From `services.ts`, `saveItemsToStorage`: overwrite the blob under `key` with
the serialization of the given (already JSON-encoded) items.  The write is
modelled as succeeding; on failure the code logs and swallows, which no claim
under verification exercises. -/
def saveItemsToStorage (store : Store) (key : String) (items : List JsonValue) : Store :=
  fun k => if k = key then .value (.json (.arr items)) else store k

-- services.ts : TMDB service

/-- Environment outcome of the single `fetch` the metadata client issues:
transport error, or a response with its `ok` flag and the parse outcome of
its body (`response.json()` throws on a non-JSON body). -/
inductive FetchOutcome where
  | networkError
  | response (ok : Bool) (body : Stored)

/-- JavaScript member access `data.results` on a parsed JSON value:
`undefined` (`none`) for a missing field or a non-object; accessing a member
of `null` throws (`Option.none` of the outer layer). -/
def jsMember (v : JsonValue) (name : String) : Option (Option JsonValue) :=
  match v with
  | .null => none
  | .obj fields => some (fields.lookup name)
  | _ => some none

/-- From `services.ts`, `tmdbService.searchMovies`, parameterized by the configured
credential (the repository ships `apiKey := TMDB_API_KEY`) and by the
environment's `FetchOutcome` for the one request the body would issue.
Returns the JavaScript value the promise resolves to (`none` = `undefined`)
paired with the number of outbound requests issued. -/
def searchMovies (apiKey : String) (query : String) (outcome : FetchOutcome) :
    Option JsonValue × Nat :=
  if query = "" ∨ apiKey = "YOUR_TMDB_API_KEY_HERE" then
    (some (.arr []), 0)
  else
    match outcome with
    | .networkError => (some (.arr []), 1)
    | .response ok body =>
      if ok then
        match body with
        | .malformed => (some (.arr []), 1)
        | .json data =>
          match jsMember data "results" with
          | none => (some (.arr []), 1)
          | some r => (r, 1)
      else
        (some (.arr []), 1)

-- App.tsx : controller state and handlers

/-- The `App` component's state (the three collections, the UI-selection
state) together with the browser store the storage service writes through. -/
@[ext]
structure AppState where
  movies : List Movie
  books : List Book
  events : List Event
  currentView : ActivityType
  isModalOpen : Bool
  editingItem : Option Activity
  store : Store

/-- From the `App` component, `handleOpenModal`. -/
def handleOpenModal (st : AppState) (itemToEdit : Option Activity) : AppState :=
  { st with editingItem := itemToEdit, isModalOpen := true }

/-- From the `App` component, `handleCloseModal`. -/
def handleCloseModal (st : AppState) : AppState :=
  { st with isModalOpen := false, editingItem := none }

/-- From the `App` component, `handleSaveMovie`: in edit mode (`editingItem` non-null) map
over the collection replacing every record whose `id` equals the saved
item's; otherwise append; then persist the full resulting collection and
close the modal. -/
def handleSaveMovie (st : AppState) (movie : Movie) : AppState :=
  let newMovies :=
    match st.editingItem with
    | some _ => st.movies.map (fun m => if m.id = movie.id then movie else m)
    | none => st.movies ++ [movie]
  { st with movies := newMovies,
            store := saveItemsToStorage st.store STORAGE_KEY_MOVIES (newMovies.map encodeMovie),
            isModalOpen := false, editingItem := none }

/-- From the `App` component, `handleSaveBook`. -/
def handleSaveBook (st : AppState) (book : Book) : AppState :=
  let newBooks :=
    match st.editingItem with
    | some _ => st.books.map (fun b => if b.id = book.id then book else b)
    | none => st.books ++ [book]
  { st with books := newBooks,
            store := saveItemsToStorage st.store STORAGE_KEY_BOOKS (newBooks.map encodeBook),
            isModalOpen := false, editingItem := none }

/-- From the `App` component, `handleSaveEvent`. -/
def handleSaveEvent (st : AppState) (event : Event) : AppState :=
  let newEvents :=
    match st.editingItem with
    | some _ => st.events.map (fun e => if e.id = event.id then event else e)
    | none => st.events ++ [event]
  { st with events := newEvents,
            store := saveItemsToStorage st.store STORAGE_KEY_EVENTS (newEvents.map encodeEvent),
            isModalOpen := false, editingItem := none }

/-- From the `App` component, `handleDelete`: `confirmed` is the result of the blocking
`window.confirm` dialog; on decline nothing happens, on confirmation the
matching ids are filtered out of the category's collection and the result is
persisted under that category's key. -/
def handleDelete (st : AppState) (id : String) (ty : ActivityType) (confirmed : Bool) :
    AppState :=
  if confirmed then
    match ty with
    | .movie =>
      let updatedMovies := st.movies.filter (fun m => ¬ m.id = id)
      { st with movies := updatedMovies,
                store := saveItemsToStorage st.store STORAGE_KEY_MOVIES
                  (updatedMovies.map encodeMovie) }
    | .book =>
      let updatedBooks := st.books.filter (fun b => ¬ b.id = id)
      { st with books := updatedBooks,
                store := saveItemsToStorage st.store STORAGE_KEY_BOOKS
                  (updatedBooks.map encodeBook) }
    | .event =>
      let updatedEvents := st.events.filter (fun e => ¬ e.id = id)
      { st with events := updatedEvents,
                store := saveItemsToStorage st.store STORAGE_KEY_EVENTS
                  (updatedEvents.map encodeEvent) }
  else st

/-- The active category's collection viewed as activities (the list the `App`
component renders from). -/
def currentCollection (st : AppState) : List Activity :=
  match st.currentView with
  | .movie => st.movies.map .movie
  | .book => st.books.map .book
  | .event => st.events.map .event

/-- From the `App` component, `sortedItems`: copy the active collection and sort it with the
comparator `(a, b) => new Date(b.date).getTime() - new Date(a.date).getTime()`.
`getTime` is the platform's ISO-date-to-milliseconds conversion, passed in
explicitly; the JavaScript sort places `a` before `b` when the comparator is
`≤ 0`, i.e. when `getTime b.date ≤ getTime a.date`, and is stable. -/
def sortedItems (getTime : String → Int) (st : AppState) : List Activity :=
  (currentCollection st).mergeSort
    (fun a b => getTime b.date ≤ getTime a.date)

-- components.tsx : form submission and modal dispatch

/-- The fields of the movie form other than `id` and `type`
(`Omit<Movie, 'id' | 'type'>`). -/
structure MovieFormData where
  title : String
  review : String
  rating : Int
  date : String
  releaseYear : String
  posterPath : Option String
  tmdbId : Int
deriving DecidableEq, Repr

/-- The fields of the book form other than `id` and `type`. -/
structure BookFormData where
  title : String
  review : String
  rating : Int
  date : String
  author : String
  isbn : String
deriving DecidableEq, Repr

/-- The fields of the event form other than `id` and `type`. -/
structure EventFormData where
  title : String
  review : String
  rating : Int
  date : String
  venue : String
deriving DecidableEq, Repr

/-- JavaScript `itemToEdit?.id || crypto.randomUUID()`: optional chaining
yields `undefined` (falsy) when there is no item to edit, and the or is on
falsiness, so an empty string `id` also falls through to the fresh UUID. -/
def idOrFresh (itemToEdit : Option String) (freshId : String) : String :=
  match itemToEdit with
  | none => freshId
  | some i => if i = "" then freshId else i

/-- From `components.tsx`, `MovieForm.handleSubmit`: assemble the final record from
the form data, the edited item's `id` (or a fresh UUID), and the constant tag
`'movie'`. -/
def movieFormSubmit (itemToEdit : Option Movie) (fd : MovieFormData)
    (freshId : String) : Movie :=
  { id := idOrFresh (itemToEdit.map Movie.id) freshId,
    title := fd.title, review := fd.review, rating := fd.rating, date := fd.date,
    releaseYear := fd.releaseYear, posterPath := fd.posterPath, tmdbId := fd.tmdbId }

/-- From `components.tsx`, `BookForm.handleSubmit`. -/
def bookFormSubmit (itemToEdit : Option Book) (fd : BookFormData)
    (freshId : String) : Book :=
  { id := idOrFresh (itemToEdit.map Book.id) freshId,
    title := fd.title, review := fd.review, rating := fd.rating, date := fd.date,
    author := fd.author, isbn := fd.isbn }

/-- From `components.tsx`, `EventForm.handleSubmit`. -/
def eventFormSubmit (itemToEdit : Option Event) (fd : EventFormData)
    (freshId : String) : Event :=
  { id := idOrFresh (itemToEdit.map Event.id) freshId,
    title := fd.title, review := fd.review, rating := fd.rating, date := fd.date,
    venue := fd.venue }

/-- From the `App` component, the `getModalContent` view dispatch: `itemToEdit?.type ||
currentView` (the `type` tag is never falsy, so the or is a null-default). -/
def modalView (editingItem : Option Activity) (currentView : ActivityType) :
    ActivityType :=
  match editingItem with
  | some a => a.activityType
  | none => currentView

/-- The bundle of per-category form data a modal submission draws from. -/
structure FormInputs where
  mf : MovieFormData
  bf : BookFormData
  ef : EventFormData

/-- The item produced by submitting the modal's form: `getModalContent`
chooses the form by the edited item's tag (falling back to the active view),
and that form stamps its own constant category tag and reuses the edited
item's `id` via `idOrFresh`.  `itemToEdit as Movie` (etc.) is a no-op cast;
an `editingItem` of a different tag than the rendered form cannot occur,
because the form is chosen by that very tag. -/
def modalSubmit (editingItem : Option Activity) (currentView : ActivityType)
    (inputs : FormInputs) (freshId : String) : Activity :=
  match modalView editingItem currentView with
  | .movie =>
    .movie (movieFormSubmit
      (match editingItem with | some (.movie m) => some m | _ => none)
      inputs.mf freshId)
  | .book =>
    .book (bookFormSubmit
      (match editingItem with | some (.book b) => some b | _ => none)
      inputs.bf freshId)
  | .event =>
    .event (eventFormSubmit
      (match editingItem with | some (.event e) => some e | _ => none)
      inputs.ef freshId)

-- components.tsx : useDebounce and the search effect

/-- From `components.tsx`, `useDebounce` timer semantics over a discrete timeline.
Input: the query-change events as (time, value) pairs in increasing time
order.  Each change clears the pending timer and schedules a new one `delay`
later; a timer fires unless the next change arrives strictly before its fire
time.  The result lists the debounced values in the order the timers fire
(the final change's timer always fires, nothing ever cancelling it). -/
def firedValues (delay : Nat) : List (Nat × String) → List String
  | [] => []
  | [(_, v)] => [v]
  | (t1, v1) :: (t2, v2) :: rest =>
    (if t1 + delay ≤ t2 then [v1] else []) ++ firedValues delay ((t2, v2) :: rest)

/-- From `components.tsx`, the `MovieForm` search effect: it runs each time the
debounced query changes (React skips the update when the new debounced value
equals the current one), and issues a `tmdbService.searchMovies` call exactly
when the new debounced query is non-empty.  Given the previous debounced
value and the sequence of fired debounced values, this returns the queries
for which an outbound search call is made, in order. -/
def searchCalls (prev : String) : List String → List String
  | [] => []
  | v :: rest =>
    if v = prev then searchCalls prev rest
    else (if v = "" then [] else [v]) ++ searchCalls v rest

-- Derived composites used by the algebraic claims

/-- The user-level edit flow for a movie: open the modal on the item
(`handleOpenModal`), then submit (`handleSaveMovie`); submitting closes the
modal again. -/
def editThenSaveMovie (st : AppState) (movie : Movie) : AppState :=
  handleSaveMovie (handleOpenModal st (some (.movie movie))) movie

/-- The user-level edit flow for a book: open the modal on the item, then
submit through `handleSaveBook`. -/
def editThenSaveBook (st : AppState) (book : Book) : AppState :=
  handleSaveBook (handleOpenModal st (some (.book book))) book

/-- The user-level edit flow for an event: open the modal on the item, then
submit through `handleSaveEvent`. -/
def editThenSaveEvent (st : AppState) (event : Event) : AppState :=
  handleSaveEvent (handleOpenModal st (some (.event event))) event

/-- The collection of the given category, viewed as activities. -/
def collectionOf (st : AppState) (ty : ActivityType) : List Activity :=
  match ty with
  | .movie => st.movies.map .movie
  | .book => st.books.map .book
  | .event => st.events.map .event

/-- The storage key the given category persists under. -/
def keyOf : ActivityType → String
  | .movie => STORAGE_KEY_MOVIES
  | .book => STORAGE_KEY_BOOKS
  | .event => STORAGE_KEY_EVENTS

/-- The given category's collection serialized element-wise, as the storage
service persists it. -/
def encodedCollection (st : AppState) (ty : ActivityType) : List JsonValue :=
  match ty with
  | .movie => st.movies.map encodeMovie
  | .book => st.books.map encodeBook
  | .event => st.events.map encodeEvent

-- Concrete sample data (used to instantiate the theorems below on closed inputs)

/-- A sample movie record. -/
def mA : Movie :=
  { id := "id-a", title := "Dune", review := "great", rating := 4,
    date := "2024-03-01", releaseYear := "2021", posterPath := none, tmdbId := 0 }

/-- A second sample movie record, with a distinct id and a later date. -/
def mB : Movie :=
  { id := "id-b", title := "Arrival", review := "good", rating := 5,
    date := "2024-03-02", releaseYear := "2016", posterPath := some "/arr.jpg",
    tmdbId := 329865 }

/-- An edited version of `mA`: same id, different content. -/
def mA2 : Movie := { mA with review := "rewatched, still great", rating := 5 }

/-- A movie record whose id is the empty string (as could only arrive from an
externally written storage blob, ids minted by the app being UUIDs). -/
def emptyIdMovie : Movie := { mA with id := "" }

/-- A sample monotone date-to-milliseconds function for concrete runs. -/
def sampleGetTime : String → Int :=
  fun s => if s = "2024-03-02" then 2 else if s = "2024-03-01" then 1 else 0

/-- A sample controller state holding two movies, not in edit mode. -/
def stA : AppState :=
  { movies := [mA, mB], books := [], events := [], currentView := .movie,
    isModalOpen := false, editingItem := none, store := emptyStore }

/-- State `stA` with the edit modal open on `mA`. -/
def stEditA : AppState :=
  { stA with editingItem := some (.movie mA), isModalOpen := true }

/-- Sample form inputs for the three modal forms. -/
def inputs0 : FormInputs :=
  { mf := { title := "T", review := "R", rating := 3, date := "2024-01-01",
            releaseYear := "2020", posterPath := none, tmdbId := 7 },
    bf := { title := "B", review := "R", rating := 2, date := "2024-01-02",
            author := "A", isbn := "" },
    ef := { title := "E", review := "R", rating := 1, date := "2024-01-03",
            venue := "V" } }

/-- The rapid-typing scenario from the specification: four query changes,
100 ms apart, all inside a 500 ms debounce window. -/
def rapidChanges : List (Nat × String) :=
  [(0, "d"), (100, "du"), (200, "dun"), (300, "dune")]

/-- A sample book record. -/
def bSample : Book :=
  { id := "id-bk", title := "Dune", review := "dense", rating := 4,
    date := "2024-02-10", author := "Frank Herbert", isbn := "9780441013593" }

/-- A sample event record. -/
def eSample : Event :=
  { id := "id-ev", title := "Concert", review := "loud", rating := 3,
    date := "2024-02-20", venue := "City Hall" }

/-- An edited version of `bSample`: same id, different content. -/
def bSample2 : Book := { bSample with rating := 5 }

/-- An edited version of `eSample`: same id, different content. -/
def eSample2 : Event := { eSample with review := "still loud" }

/-- The record an edit-submit of `emptyIdMovie` actually produces: the empty
id is falsy, so the falsy-or mints the fresh UUID while the controller is
still in edit mode. -/
def mFresh : Movie := movieFormSubmit (some emptyIdMovie) inputs0.mf "fresh-uuid-1"

/-- A state whose movie collection holds only `emptyIdMovie`, with the edit
modal open on it (reachable after loading an externally written blob). -/
def stEditEmpty : AppState :=
  { movies := [emptyIdMovie], books := [], events := [], currentView := .movie,
    isModalOpen := true, editingItem := some (.movie emptyIdMovie),
    store := emptyStore }

/-- A state with items in all three collections and the edit modal open on
the movie `mA`. -/
def stAll : AppState :=
  { movies := [mA, mB], books := [bSample], events := [eSample],
    currentView := .movie, isModalOpen := true,
    editingItem := some (.movie mA), store := emptyStore }

-- Theorems

/-- C2 counterexample: the claim asserts that a stored blob not matching the
collection shape degrades to an empty collection; but a blob holding valid
JSON of the wrong shape (here the object `{}`) is returned as-is by the
storage read, not degraded to the empty array. -/
theorem C2_wrong_shape_returned_as_is :
    getItemsFromStorage (fun _ => .value (.json (.obj []))) STORAGE_KEY_MOVIES
      = .obj [] ∧ JsonValue.obj [] ≠ JsonValue.arr [] :=
  ⟨rfl, fun h => JsonValue.noConfusion h⟩

/-- C2 (amended): the storage read returns the empty array when the blob is
absent, when reading it throws, and when parsing it fails, never propagating
an error; but a blob that parses as valid JSON is returned as-is without
shape validation (the cast to a typed array is a runtime no-op). -/
theorem C2_load_error_fallback (store : Store) (key : String) :
    (store key = .absent → getItemsFromStorage store key = .arr []) ∧
    (store key = .readError → getItemsFromStorage store key = .arr []) ∧
    (store key = .value .malformed → getItemsFromStorage store key = .arr []) ∧
    (∀ v, store key = .value (.json v) → getItemsFromStorage store key = v) := by
  refine ⟨fun h => ?_, fun h => ?_, fun h => ?_, fun v h => ?_⟩ <;>
    simp [getItemsFromStorage, h]

/-- C2 witness: the amended fallback behavior evaluated on concrete stores. -/
theorem C2_load_error_fallback_witness :
    getItemsFromStorage emptyStore STORAGE_KEY_MOVIES = .arr [] ∧
    getItemsFromStorage (fun _ => .value .malformed) STORAGE_KEY_BOOKS = .arr [] ∧
    getItemsFromStorage (fun _ => .value (.json (.num 5))) STORAGE_KEY_EVENTS = .num 5 :=
  ⟨(C2_load_error_fallback emptyStore STORAGE_KEY_MOVIES).1 rfl,
   (C2_load_error_fallback (fun _ => .value .malformed) STORAGE_KEY_BOOKS).2.2.1 rfl,
   (C2_load_error_fallback (fun _ => .value (.json (.num 5))) STORAGE_KEY_EVENTS).2.2.2
     (.num 5) rfl⟩

/-- C5: the metadata client's search never raises: an empty query or the
unconfigured placeholder credential yields the empty array with no outbound
request; otherwise exactly one request is issued, and a transport error or a
non-success response yields the empty array. -/
theorem C5_search_never_raises (apiKey query : String) (outcome : FetchOutcome) :
    (query = "" → searchMovies apiKey query outcome = (some (.arr []), 0)) ∧
    (apiKey = TMDB_API_KEY → searchMovies apiKey query outcome = (some (.arr []), 0)) ∧
    (query ≠ "" → apiKey ≠ TMDB_API_KEY →
      (searchMovies apiKey query outcome).2 = 1 ∧
      (outcome = .networkError →
        (searchMovies apiKey query outcome).1 = some (.arr [])) ∧
      (∀ body, outcome = .response false body →
        (searchMovies apiKey query outcome).1 = some (.arr []))) := by
  refine ⟨fun h => ?_, fun h => ?_, fun hq hk => ?_⟩
  · simp [searchMovies, h]
  · simp [searchMovies, TMDB_API_KEY] at h ⊢
    simp [h]
  · have hk' : ¬ apiKey = "YOUR_TMDB_API_KEY_HERE" := by
      simpa [TMDB_API_KEY] using hk
    refine ⟨?_, fun h => ?_, fun body h => ?_⟩
    · cases outcome with
      | networkError => simp [searchMovies, hq, hk']
      | response ok body =>
        cases ok with
        | false => simp [searchMovies, hq, hk']
        | true =>
          cases body with
          | malformed => simp [searchMovies, hq, hk']
          | json data =>
            cases hm : jsMember data "results" with
            | none => simp [searchMovies, hq, hk', hm]
            | some r => simp [searchMovies, hq, hk', hm]
    · simp [searchMovies, hq, hk', h]
    · simp [searchMovies, hq, hk', h]

/-- C5 witness: concrete runs of the client through each guarded path. -/
theorem C5_search_never_raises_witness :
    searchMovies "real-key" "" .networkError = (some (.arr []), 0) ∧
    searchMovies TMDB_API_KEY "dune" .networkError = (some (.arr []), 0) ∧
    (searchMovies "real-key" "dune" .networkError).2 = 1 ∧
    (searchMovies "real-key" "dune" .networkError).1 = some (.arr []) ∧
    (searchMovies "real-key" "dune" (.response false (.json (.obj [])))).1
      = some (.arr []) := by
  have h1 := (C5_search_never_raises "real-key" "" FetchOutcome.networkError).1 rfl
  have h2 := (C5_search_never_raises TMDB_API_KEY "dune" FetchOutcome.networkError).2.1 rfl
  have h3 := (C5_search_never_raises "real-key" "dune" FetchOutcome.networkError).2.2
    (by decide) (by decide)
  have h4 := (C5_search_never_raises "real-key" "dune"
    (FetchOutcome.response false (.json (.obj [])))).2.2 (by decide) (by decide)
  exact ⟨h1, h2, h3.1, h3.2.1 rfl, h4.2.2 (.json (.obj [])) rfl⟩

/-- C10: the client returns the response body's `results` field without
validation: a successful response whose JSON body is the object `{}` (no
`results` field) makes `search` resolve to `undefined` (modelled `none`)
rather than to a list of candidates, after its single request. -/
theorem C10_missing_results_is_undefined :
    searchMovies "real-key" "dune" (.response true (.json (.obj []))) = (none, 1) := by
  simp [searchMovies, TMDB_API_KEY, jsMember]

/-- Helper: removing the matching keys from a list that holds exactly one
match shortens it by one and leaves no match. -/
theorem filter_remove_spec {α : Type} (l : List α) (f : α → String) (id : String)
    (hone : (l.filter (fun a => f a = id)).length = 1) :
    (l.filter (fun a => ¬ f a = id)).length + 1 = l.length ∧
    (l.filter (fun a => ¬ f a = id)).filter (fun a => f a = id) = [] := by
  constructor
  · rw [← List.countP_eq_length_filter] at hone
    rw [← List.countP_eq_length_filter]
    have hlen := List.length_eq_countP_add_countP (fun a => decide (f a = id)) l
    simp only [decide_eq_true_eq] at hlen
    omega
  · rw [List.filter_filter, List.filter_eq_nil_iff]
    intro a _
    simp

/-- C3: delete is gated on the explicit confirmation: a declined confirmation
leaves the whole state (collections and store) unchanged; a confirmed
deletion from a collection containing exactly one record with the given id
shrinks that collection by one, leaves no record with that id, and persists
the reduced collection under the category's key. -/
theorem C3_delete_confirmation_gate (st : AppState) (id : String) (ty : ActivityType)
    (hone : ((collectionOf st ty).filter (fun a => a.id = id)).length = 1) :
    handleDelete st id ty false = st ∧
    (collectionOf (handleDelete st id ty true) ty).length + 1
      = (collectionOf st ty).length ∧
    (collectionOf (handleDelete st id ty true) ty).filter (fun a => a.id = id) = [] ∧
    (handleDelete st id ty true).store (keyOf ty)
      = .value (.json (.arr (encodedCollection (handleDelete st id ty true) ty))) := by
  refine ⟨rfl, ?_⟩
  cases ty with
  | movie =>
    have hred : handleDelete st id .movie true
        = { st with movies := st.movies.filter (fun m => ¬ m.id = id),
                    store := saveItemsToStorage st.store STORAGE_KEY_MOVIES
                      ((st.movies.filter (fun m => ¬ m.id = id)).map encodeMovie) } := rfl
    simp only [collectionOf, keyOf, encodedCollection, hred] at hone ⊢
    rw [List.filter_map] at hone
    simp only [List.length_map] at hone ⊢
    have h2 := filter_remove_spec st.movies (fun m => m.id) id
      (by simpa [Function.comp_def, Activity.id] using hone)
    refine ⟨h2.1, ?_, ?_⟩
    · rw [List.filter_map]
      simp only [Function.comp_def, Activity.id]
      rw [List.filter_filter]
      simp
    · simp [saveItemsToStorage]
  | book =>
    have hred : handleDelete st id .book true
        = { st with books := st.books.filter (fun b => ¬ b.id = id),
                    store := saveItemsToStorage st.store STORAGE_KEY_BOOKS
                      ((st.books.filter (fun b => ¬ b.id = id)).map encodeBook) } := rfl
    simp only [collectionOf, keyOf, encodedCollection, hred] at hone ⊢
    rw [List.filter_map] at hone
    simp only [List.length_map] at hone ⊢
    have h2 := filter_remove_spec st.books (fun b => b.id) id
      (by simpa [Function.comp_def, Activity.id] using hone)
    refine ⟨h2.1, ?_, ?_⟩
    · rw [List.filter_map]
      simp only [Function.comp_def, Activity.id]
      rw [List.filter_filter]
      simp
    · simp [saveItemsToStorage]
  | event =>
    have hred : handleDelete st id .event true
        = { st with events := st.events.filter (fun e => ¬ e.id = id),
                    store := saveItemsToStorage st.store STORAGE_KEY_EVENTS
                      ((st.events.filter (fun e => ¬ e.id = id)).map encodeEvent) } := rfl
    simp only [collectionOf, keyOf, encodedCollection, hred] at hone ⊢
    rw [List.filter_map] at hone
    simp only [List.length_map] at hone ⊢
    have h2 := filter_remove_spec st.events (fun e => e.id) id
      (by simpa [Function.comp_def, Activity.id] using hone)
    refine ⟨h2.1, ?_, ?_⟩
    · rw [List.filter_map]
      simp only [Function.comp_def, Activity.id]
      rw [List.filter_filter]
      simp
    · simp [saveItemsToStorage]

/-- C3 witness: deleting `mA` from the two-movie state `stA`. -/
theorem C3_delete_confirmation_gate_witness :
    handleDelete stA "id-a" .movie false = stA ∧
    (collectionOf (handleDelete stA "id-a" .movie true) .movie).length + 1
      = (collectionOf stA .movie).length ∧
    (collectionOf (handleDelete stA "id-a" .movie true) .movie).filter
      (fun a => a.id = "id-a") = [] ∧
    (handleDelete stA "id-a" .movie true).store (keyOf .movie)
      = .value (.json (.arr (encodedCollection (handleDelete stA "id-a" .movie true)
          .movie))) :=
  C3_delete_confirmation_gate stA "id-a" .movie (by decide)

/-- C4: the display list is a permutation of the active category's collection
and is ordered by date non-increasing, for every state (hence regardless of
insertion order).  Dates are compared through the platform's
date-to-milliseconds conversion `getTime`, exactly as the comparator
`(a, b) => new Date(b.date).getTime() - new Date(a.date).getTime()` does;
the pairwise ordering makes any item with a strictly larger date appear
before any item with a strictly smaller one. -/
theorem C4_sorted_by_date_desc (getTime : String → Int) (st : AppState) :
    (sortedItems getTime st).Perm (currentCollection st) ∧
    (sortedItems getTime st).Pairwise
      (fun a b => getTime b.date ≤ getTime a.date) := by
  constructor
  · exact List.mergeSort_perm (currentCollection st) _
  · have hs := @List.sorted_mergeSort Activity
      (fun a b : Activity => decide (getTime b.date ≤ getTime a.date))
      (fun a b c hab hbc => by
        simp only [decide_eq_true_eq] at hab hbc ⊢
        omega)
      (fun a b => by
        simp only [Bool.or_eq_true, decide_eq_true_eq]
        omega)
      (currentCollection st)
    exact hs.imp (fun h => by simpa using h)

/-- C6: saving an existing item twice with identical content changes nothing
the second time, in every category.  The controller's save handlers exit edit
mode as they close the form, so "save again" goes through the edit flow the
UI imposes: reopen the form on the item (`handleOpenModal`) and submit; that
composite is idempotent on the full state — same collection size, same
records, same persisted blob — for every state and every item of each
category. -/
theorem C6_edit_save_idempotent (st : AppState) (movie : Movie) (book : Book)
    (event : Event) :
    editThenSaveMovie (editThenSaveMovie st movie) movie
      = editThenSaveMovie st movie ∧
    editThenSaveBook (editThenSaveBook st book) book
      = editThenSaveBook st book ∧
    editThenSaveEvent (editThenSaveEvent st event) event
      = editThenSaveEvent st event := by
  refine ⟨?_, ?_, ?_⟩
  · have hred : ∀ s : AppState, editThenSaveMovie s movie =
        { s with
            movies := s.movies.map (fun x => if x.id = movie.id then movie else x),
            store := saveItemsToStorage s.store STORAGE_KEY_MOVIES
              ((s.movies.map (fun x => if x.id = movie.id then movie else x)).map
                encodeMovie),
            isModalOpen := false, editingItem := none } := fun s => rfl
    have hfx : ∀ x : Movie,
        (if (if x.id = movie.id then movie else x).id = movie.id then movie
         else (if x.id = movie.id then movie else x))
          = if x.id = movie.id then movie else x := by
      intro x
      by_cases h : x.id = movie.id <;> simp [h]
    have hmap2 : ∀ l : List Movie,
        ((l.map (fun x => if x.id = movie.id then movie else x)).map
          (fun x => if x.id = movie.id then movie else x))
          = l.map (fun x => if x.id = movie.id then movie else x) := by
      intro l
      rw [List.map_map]
      exact List.map_congr_left (fun x _ => hfx x)
    rw [hred, hred]
    refine AppState.ext ?_ ?_ ?_ ?_ ?_ ?_ ?_ <;> simp [hmap2]
    funext k
    by_cases h : k = STORAGE_KEY_MOVIES <;> simp [saveItemsToStorage, h, hmap2]
  · have hred : ∀ s : AppState, editThenSaveBook s book =
        { s with
            books := s.books.map (fun x => if x.id = book.id then book else x),
            store := saveItemsToStorage s.store STORAGE_KEY_BOOKS
              ((s.books.map (fun x => if x.id = book.id then book else x)).map
                encodeBook),
            isModalOpen := false, editingItem := none } := fun s => rfl
    have hfx : ∀ x : Book,
        (if (if x.id = book.id then book else x).id = book.id then book
         else (if x.id = book.id then book else x))
          = if x.id = book.id then book else x := by
      intro x
      by_cases h : x.id = book.id <;> simp [h]
    have hmap2 : ∀ l : List Book,
        ((l.map (fun x => if x.id = book.id then book else x)).map
          (fun x => if x.id = book.id then book else x))
          = l.map (fun x => if x.id = book.id then book else x) := by
      intro l
      rw [List.map_map]
      exact List.map_congr_left (fun x _ => hfx x)
    rw [hred, hred]
    refine AppState.ext ?_ ?_ ?_ ?_ ?_ ?_ ?_ <;> simp [hmap2]
    funext k
    by_cases h : k = STORAGE_KEY_BOOKS <;> simp [saveItemsToStorage, h, hmap2]
  · have hred : ∀ s : AppState, editThenSaveEvent s event =
        { s with
            events := s.events.map (fun x => if x.id = event.id then event else x),
            store := saveItemsToStorage s.store STORAGE_KEY_EVENTS
              ((s.events.map (fun x => if x.id = event.id then event else x)).map
                encodeEvent),
            isModalOpen := false, editingItem := none } := fun s => rfl
    have hfx : ∀ x : Event,
        (if (if x.id = event.id then event else x).id = event.id then event
         else (if x.id = event.id then event else x))
          = if x.id = event.id then event else x := by
      intro x
      by_cases h : x.id = event.id <;> simp [h]
    have hmap2 : ∀ l : List Event,
        ((l.map (fun x => if x.id = event.id then event else x)).map
          (fun x => if x.id = event.id then event else x))
          = l.map (fun x => if x.id = event.id then event else x) := by
      intro l
      rw [List.map_map]
      exact List.map_congr_left (fun x _ => hfx x)
    rw [hred, hred]
    refine AppState.ext ?_ ?_ ?_ ?_ ?_ ?_ ?_ <;> simp [hmap2]
    funext k
    by_cases h : k = STORAGE_KEY_EVENTS <;> simp [saveItemsToStorage, h, hmap2]

/-- Helper: replacing by a key that occurs exactly once (no duplicate keys,
key present) leaves exactly the replacement as the key's matches. -/
theorem filter_replace_of_nodup {α : Type} (key : α → String) (x : α) :
    ∀ (l : List α), (l.map key).Nodup → key x ∈ l.map key →
    (l.map (fun m => if key m = key x then x else m)).filter
      (fun m => key m = key x) = [x] := by
  intro l
  induction l with
  | nil => intro _ h; simp at h
  | cons a l ih =>
    intro hnd hmem
    simp only [List.map_cons, List.nodup_cons] at hnd
    by_cases ha : key a = key x
    · have htail : ∀ m ∈ l, ¬ key m = key x := by
        intro m hm hmid
        exact hnd.1 (by rw [ha, ← hmid]; exact List.mem_map_of_mem key hm)
      have hnil : (l.map (fun m => if key m = key x then x else m)).filter
          (fun m => key m = key x) = [] := by
        rw [List.filter_eq_nil_iff]
        intro z hz
        rcases List.mem_map.mp hz with ⟨m, hm, rfl⟩
        rw [if_neg (htail m hm)]
        simpa using htail m hm
      simp [List.filter_cons, ha, hnil]
    · have hmem2 : key x ∈ l.map key := by
        rcases List.mem_cons.mp hmem with h | h
        · exact absurd h.symm ha
        · exact h
      simp [List.filter_cons, ha, ih hnd.2 hmem2]

/-- Helper: appending a record whose key is absent from a list leaves it as
the only match of its key. -/
theorem filter_append_of_fresh {α : Type} (key : α → String) (x : α)
    (l : List α) (hmem : key x ∉ l.map key) :
    (l ++ [x]).filter (fun m => key m = key x) = [x] := by
  have hnil : l.filter (fun m => key m = key x) = [] := by
    rw [List.filter_eq_nil_iff]
    intro m hm
    simp only [decide_eq_true_eq]
    intro hmid
    exact hmem (by rw [← hmid]; exact List.mem_map_of_mem key hm)
  simp [List.filter_append, hnil]

/-- C1 counterexample: the save handler branches on edit mode, not on id
membership, and the two diverge at a reachable input: editing an item whose
stored id is the empty string (loaded unvalidated from an externally written
blob, see C2) submits a fresh-id record while still in edit mode — the
claim's append branch then fails, the map replaces nothing, the collection is
unchanged, the submitted item is silently dropped, and no record with its id
exists afterwards. -/
theorem C1_edit_mode_append_branch_fails :
    mFresh.id ∉ stEditEmpty.movies.map Movie.id ∧
    (handleSaveMovie stEditEmpty mFresh).movies = stEditEmpty.movies ∧
    (handleSaveMovie stEditEmpty mFresh).movies ≠ stEditEmpty.movies ++ [mFresh] ∧
    (handleSaveMovie stEditEmpty mFresh).movies.filter
      (fun m => m.id = mFresh.id) = [] :=
  ⟨by decide, rfl, by decide, by decide⟩

/-- C1 (amended): for each of the three categories, whenever the collection's
ids are unique and edit mode coincides with the saved id being present — true
of every submission the app produces except the edit of an empty-id item,
where the falsy-or mints a fresh id and the item is silently dropped (see the
counterexample) — save replaces the matching record in place (same length,
all other positions untouched) when the id is present and appends when it is
absent, always persists the full resulting collection under the category's
key, and a subsequent load yields it with exactly one record carrying the
saved id, equal to the saved item. -/
theorem C1_save_then_load (st : AppState) (movie : Movie) (book : Book)
    (event : Event) :
    (((st.movies.map Movie.id).Nodup →
      (st.editingItem.isSome = true ↔ movie.id ∈ st.movies.map Movie.id) →
      (((movie.id ∈ st.movies.map Movie.id →
          (handleSaveMovie st movie).movies.length = st.movies.length ∧
          ∀ (i : Nat) (y : Movie), st.movies[i]? = some y →
            (handleSaveMovie st movie).movies[i]? =
              some (if y.id = movie.id then movie else y)) ∧
        (movie.id ∉ st.movies.map Movie.id →
          (handleSaveMovie st movie).movies = st.movies ++ [movie])) ∧
       (handleSaveMovie st movie).movies.filter (fun y => y.id = movie.id) = [movie] ∧
       getItemsFromStorage (handleSaveMovie st movie).store STORAGE_KEY_MOVIES
         = .arr ((handleSaveMovie st movie).movies.map encodeMovie)))) ∧
    (((st.books.map Book.id).Nodup →
      (st.editingItem.isSome = true ↔ book.id ∈ st.books.map Book.id) →
      (((book.id ∈ st.books.map Book.id →
          (handleSaveBook st book).books.length = st.books.length ∧
          ∀ (i : Nat) (y : Book), st.books[i]? = some y →
            (handleSaveBook st book).books[i]? =
              some (if y.id = book.id then book else y)) ∧
        (book.id ∉ st.books.map Book.id →
          (handleSaveBook st book).books = st.books ++ [book])) ∧
       (handleSaveBook st book).books.filter (fun y => y.id = book.id) = [book] ∧
       getItemsFromStorage (handleSaveBook st book).store STORAGE_KEY_BOOKS
         = .arr ((handleSaveBook st book).books.map encodeBook)))) ∧
    (((st.events.map Event.id).Nodup →
      (st.editingItem.isSome = true ↔ event.id ∈ st.events.map Event.id) →
      (((event.id ∈ st.events.map Event.id →
          (handleSaveEvent st event).events.length = st.events.length ∧
          ∀ (i : Nat) (y : Event), st.events[i]? = some y →
            (handleSaveEvent st event).events[i]? =
              some (if y.id = event.id then event else y)) ∧
        (event.id ∉ st.events.map Event.id →
          (handleSaveEvent st event).events = st.events ++ [event])) ∧
       (handleSaveEvent st event).events.filter (fun y => y.id = event.id) = [event] ∧
       getItemsFromStorage (handleSaveEvent st event).store STORAGE_KEY_EVENTS
         = .arr ((handleSaveEvent st event).events.map encodeEvent)))) := by
  obtain ⟨mv, bk, ev, cv, mo, ed, sto⟩ := st
  cases ed with
  | none =>
    refine ⟨fun hN hE => ?_, fun hN hE => ?_, fun hN hE => ?_⟩
    · have hmem : movie.id ∉ mv.map Movie.id := by simpa using hE
      refine ⟨⟨fun h => absurd h hmem, fun _ => rfl⟩,
        filter_append_of_fresh Movie.id movie mv hmem, ?_⟩
      simp [getItemsFromStorage, saveItemsToStorage, handleSaveMovie]
    · have hmem : book.id ∉ bk.map Book.id := by simpa using hE
      refine ⟨⟨fun h => absurd h hmem, fun _ => rfl⟩,
        filter_append_of_fresh Book.id book bk hmem, ?_⟩
      simp [getItemsFromStorage, saveItemsToStorage, handleSaveBook]
    · have hmem : event.id ∉ ev.map Event.id := by simpa using hE
      refine ⟨⟨fun h => absurd h hmem, fun _ => rfl⟩,
        filter_append_of_fresh Event.id event ev hmem, ?_⟩
      simp [getItemsFromStorage, saveItemsToStorage, handleSaveEvent]
  | some a =>
    refine ⟨fun hN hE => ?_, fun hN hE => ?_, fun hN hE => ?_⟩
    · have hmem : movie.id ∈ mv.map Movie.id := by simpa using hE
      refine ⟨⟨fun _ => ⟨by simp [handleSaveMovie], fun i y hiy => ?_⟩,
        fun h => absurd hmem h⟩,
        filter_replace_of_nodup Movie.id movie mv hN hmem, ?_⟩
      · show (mv.map (fun x => if x.id = movie.id then movie else x))[i]?
          = some (if y.id = movie.id then movie else y)
        simp [List.getElem?_map, hiy]
      · simp [getItemsFromStorage, saveItemsToStorage, handleSaveMovie]
    · have hmem : book.id ∈ bk.map Book.id := by simpa using hE
      refine ⟨⟨fun _ => ⟨by simp [handleSaveBook], fun i y hiy => ?_⟩,
        fun h => absurd hmem h⟩,
        filter_replace_of_nodup Book.id book bk hN hmem, ?_⟩
      · show (bk.map (fun x => if x.id = book.id then book else x))[i]?
          = some (if y.id = book.id then book else y)
        simp [List.getElem?_map, hiy]
      · simp [getItemsFromStorage, saveItemsToStorage, handleSaveBook]
    · have hmem : event.id ∈ ev.map Event.id := by simpa using hE
      refine ⟨⟨fun _ => ⟨by simp [handleSaveEvent], fun i y hiy => ?_⟩,
        fun h => absurd hmem h⟩,
        filter_replace_of_nodup Event.id event ev hN hmem, ?_⟩
      · show (ev.map (fun x => if x.id = event.id then event else x))[i]?
          = some (if y.id = event.id then event else y)
        simp [List.getElem?_map, hiy]
      · simp [getItemsFromStorage, saveItemsToStorage, handleSaveEvent]

/-- C1 witness: the state `stAll` holds items of all three categories with
the edit modal open on the movie `mA`; each category's edited record (same
id, new content) is saved, ends as the unique match of its id, and the
persisted movie blob loads back as the encoded resulting collection. -/
theorem C1_save_then_load_witness :
    ((stAll.movies.map Movie.id).Nodup ∧
     (stAll.editingItem.isSome = true ↔ mA2.id ∈ stAll.movies.map Movie.id)) ∧
    (handleSaveMovie stAll mA2).movies.filter (fun y => y.id = mA2.id) = [mA2] ∧
    (handleSaveBook stAll bSample2).books.filter
      (fun y => y.id = bSample2.id) = [bSample2] ∧
    (handleSaveEvent stAll eSample2).events.filter
      (fun y => y.id = eSample2.id) = [eSample2] ∧
    getItemsFromStorage (handleSaveMovie stAll mA2).store STORAGE_KEY_MOVIES
      = .arr ((handleSaveMovie stAll mA2).movies.map encodeMovie) :=
  ⟨⟨by decide, by decide⟩,
   ((C1_save_then_load stAll mA2 bSample2 eSample2).1 (by decide) (by decide)).2.1,
   ((C1_save_then_load stAll mA2 bSample2 eSample2).2.1 (by decide) (by decide)).2.1,
   ((C1_save_then_load stAll mA2 bSample2 eSample2).2.2 (by decide) (by decide)).2.1,
   ((C1_save_then_load stAll mA2 bSample2 eSample2).1 (by decide) (by decide)).2.2⟩

/-- C7 counterexample: an edit-submit does not always preserve the edited
item's id: for an item whose id is the empty string (reachable only through
an externally written storage blob), the falsy-or in
`itemToEdit?.id || crypto.randomUUID()` mints a fresh UUID instead. -/
theorem C7_empty_id_not_preserved :
    (modalSubmit (some (.movie emptyIdMovie)) .movie inputs0 "fresh-uuid-1").id
      = "fresh-uuid-1" ∧
    Activity.id (.movie emptyIdMovie) = "" ∧ ("fresh-uuid-1" : String) ≠ "" :=
  ⟨rfl, rfl, by decide⟩

/-- C7 (amended): a create-submit carries exactly the freshly minted id, an
edit-submit preserves the edited item's id whenever that id is non-empty
(ids the app itself mints are UUIDs, hence non-empty; an empty id falls
through the falsy-or to a fresh UUID), and the category tag is always
preserved by an edit-submit — the modal picks the form by the edited item's
own tag and the form stamps that same constant tag back. -/
theorem C7_id_and_category_stable (a : Activity) (cv : ActivityType)
    (inputs : FormInputs) (freshId : String) (hid : a.id ≠ "") :
    (modalSubmit (some a) cv inputs freshId).id = a.id ∧
    (modalSubmit (some a) cv inputs freshId).activityType = a.activityType ∧
    (modalSubmit none cv inputs freshId).id = freshId := by
  refine ⟨?_, ?_, ?_⟩
  · obtain (m | b | e) := a <;>
      simp_all [modalSubmit, modalView, Activity.activityType, movieFormSubmit,
        bookFormSubmit, eventFormSubmit, idOrFresh, Activity.id]
  · obtain (m | b | e) := a <;> rfl
  · cases cv <;> rfl

/-- C7 witness: editing the movie `mA` (opened while the book view is
active) keeps its id and its movie tag; a creation carries the fresh id. -/
theorem C7_id_and_category_stable_witness :
    Activity.id (.movie mA) ≠ "" ∧
    ((modalSubmit (some (.movie mA)) .book inputs0 "fresh-uuid-2").id
        = Activity.id (.movie mA) ∧
     (modalSubmit (some (.movie mA)) .book inputs0 "fresh-uuid-2").activityType
        = Activity.activityType (.movie mA) ∧
     (modalSubmit none .movie inputs0 "fresh-uuid-2").id = "fresh-uuid-2") :=
  ⟨by decide,
   C7_id_and_category_stable (.movie mA) .book inputs0 "fresh-uuid-2" (by decide)⟩

/-- Helper: when every consecutive change arrives strictly within the delay
of the previous one, every timer but the final one is cancelled. -/
theorem firedValues_all_rapid (delay : Nat) :
    ∀ (l : List (Nat × String)) (hne : l ≠ []),
      l.Chain' (fun p q => q.1 < p.1 + delay) →
      firedValues delay l = [(l.getLast hne).2] := by
  intro l
  induction l with
  | nil => intro h; exact absurd rfl h
  | cons a t ih =>
    intro hne hchain
    cases t with
    | nil => rfl
    | cons c r =>
      rw [List.chain'_cons] at hchain
      have hred : firedValues delay (a :: c :: r)
          = (if a.1 + delay ≤ c.1 then [a.2] else []) ++ firedValues delay (c :: r) := rfl
      rw [hred, if_neg (by omega), List.nil_append,
        ih (List.cons_ne_nil c r) hchain.2]
      simp [List.getLast_cons]

/-- C8: rapid query changes, each arriving within the debounce window of the
previous one, cancel and restart the pending timer, so exactly one debounced
update fires, carrying the final stable query; when that query is non-empty
and differs from the previously debounced one, the search effect issues
exactly one outbound search call, for that final query. -/
theorem C8_debounce_single_search (delay : Nat) (changes : List (Nat × String))
    (prev : String) (hne : changes ≠ [])
    (hrapid : changes.Chain' (fun p q => q.1 < p.1 + delay))
    (hfinal : (changes.getLast hne).2 ≠ "")
    (hnew : (changes.getLast hne).2 ≠ prev) :
    firedValues delay changes = [(changes.getLast hne).2] ∧
    searchCalls prev (firedValues delay changes) = [(changes.getLast hne).2] := by
  have h1 := firedValues_all_rapid delay changes hne hrapid
  refine ⟨h1, ?_⟩
  rw [h1]
  simp [searchCalls, hfinal, hnew]

/-- C8 witness: the scenario "d", "du", "dun", "dune" typed 100 ms apart
with a 500 ms debounce issues exactly one search call, for "dune". -/
theorem C8_debounce_single_search_witness :
    rapidChanges ≠ [] ∧
    rapidChanges.Chain' (fun p q => q.1 < p.1 + 500) ∧
    firedValues 500 rapidChanges = ["dune"] ∧
    searchCalls "" (firedValues 500 rapidChanges) = ["dune"] := by
  have h := C8_debounce_single_search 500 rapidChanges "" (by decide)
    (by simp [rapidChanges, List.chain'_cons]) (by decide) (by decide)
  refine ⟨by decide, by simp [rapidChanges, List.chain'_cons], ?_, ?_⟩
  · exact h.1.trans (by decide)
  · exact h.2.trans (by decide)

/-- Helper: distinct categories persist under distinct storage keys. -/
theorem keyOf_ne_of_ne (ty ty2 : ActivityType) (hne : ty2 ≠ ty) :
    keyOf ty2 ≠ keyOf ty := by
  cases ty <;> cases ty2 <;> first | exact absurd rfl hne | decide

/-- Helper: a confirmed delete changes no storage key but its category's. -/
theorem handleDelete_store_frame (st : AppState) (id : String) (ty : ActivityType)
    (k : String) (hk : k ≠ keyOf ty) :
    (handleDelete st id ty true).store k = st.store k := by
  cases ty <;> simp only [keyOf] at hk <;>
    simp [handleDelete, saveItemsToStorage, hk]

/-- Helper: a confirmed delete leaves every other category's collection
unchanged. -/
theorem handleDelete_coll_frame (st : AppState) (id : String) (ty ty2 : ActivityType)
    (hne : ty2 ≠ ty) :
    collectionOf (handleDelete st id ty true) ty2 = collectionOf st ty2 := by
  cases ty <;> cases ty2 <;> first | exact absurd rfl hne | rfl

/-- C9: every controller mutation is framed to its own category: a movie,
book, or event save leaves the other two in-memory collections unchanged and
changes no storage key but its own; a confirmed delete on a category leaves
every other category's collection unchanged, leaves the other categories'
stored blobs untouched, and writes only under its own category's key. -/
theorem C9_mutations_category_framed (st : AppState) (m : Movie) (b : Book)
    (e : Event) (id k : String) (ty ty2 : ActivityType) (hne : ty2 ≠ ty) :
    ((handleSaveMovie st m).books = st.books ∧
      (handleSaveMovie st m).events = st.events ∧
      (k ≠ STORAGE_KEY_MOVIES → (handleSaveMovie st m).store k = st.store k)) ∧
    ((handleSaveBook st b).movies = st.movies ∧
      (handleSaveBook st b).events = st.events ∧
      (k ≠ STORAGE_KEY_BOOKS → (handleSaveBook st b).store k = st.store k)) ∧
    ((handleSaveEvent st e).movies = st.movies ∧
      (handleSaveEvent st e).books = st.books ∧
      (k ≠ STORAGE_KEY_EVENTS → (handleSaveEvent st e).store k = st.store k)) ∧
    (collectionOf (handleDelete st id ty true) ty2 = collectionOf st ty2 ∧
      (handleDelete st id ty true).store (keyOf ty2) = st.store (keyOf ty2) ∧
      (k ≠ keyOf ty → (handleDelete st id ty true).store k = st.store k)) := by
  refine ⟨⟨rfl, rfl, fun hk => ?_⟩, ⟨rfl, rfl, fun hk => ?_⟩,
    ⟨rfl, rfl, fun hk => ?_⟩,
    handleDelete_coll_frame st id ty ty2 hne,
    handleDelete_store_frame st id ty (keyOf ty2) (keyOf_ne_of_ne ty ty2 hne),
    fun hk => handleDelete_store_frame st id ty k hk⟩
  · simp [handleSaveMovie, saveItemsToStorage, hk]
  · simp [handleSaveBook, saveItemsToStorage, hk]
  · simp [handleSaveEvent, saveItemsToStorage, hk]

/-- C9 witness: a movie save and a confirmed movie delete on the sample
state leave the book collection and the book storage key untouched. -/
theorem C9_mutations_category_framed_witness :
    ActivityType.book ≠ ActivityType.movie ∧
    STORAGE_KEY_BOOKS ≠ STORAGE_KEY_MOVIES ∧
    (handleSaveMovie stA mA2).books = stA.books ∧
    (handleSaveMovie stA mA2).store STORAGE_KEY_BOOKS
      = stA.store STORAGE_KEY_BOOKS ∧
    collectionOf (handleDelete stA "id-a" .movie true) .book
      = collectionOf stA .book ∧
    (handleDelete stA "id-a" .movie true).store (keyOf .book)
      = stA.store (keyOf .book) := by
  have h := C9_mutations_category_framed stA mA2 bSample eSample "id-a"
    STORAGE_KEY_BOOKS .movie .book (by decide)
  exact ⟨by decide, by decide, h.1.1, h.1.2.2 (by decide), h.2.2.2.1, h.2.2.2.2.1⟩
